import Mathlib

/-!
Verification of the web research tool's core research-iteration loop
(`src/web_research_tool/web_research_tool.py`, `conduct_research`) and its
helpers (`content_extraction.py`, `source_evaluation.py`).

The Python code is shallowly embedded: the external collaborators (Google
search, HTTP fetch + HTML/PDF parsing, the LLM calls) are modelled as oracle
functions bundled in `Collaborators`; floats are modelled as exact rationals;
Python lists/sets become Lean lists (for the completed-query set only
membership is ever used).
-/

namespace WebResearch

/-! ## Python string helpers

`pyContains hay needle` is Python's `needle in hay` substring test.
`pyStrip` is Python's `str.strip()` (whitespace on both ends).
-/

/-- Python's whitespace class for `str.strip` and the regex class `\s`:
space, tab, newline, carriage return, form feed, vertical tab. -/
def isPySpace (c : Char) : Bool :=
  c = ' ' || c = '\t' || c = '\n' || c = '\r' || c = '\x0c' || c = '\x0b'

/-- `listStartsWith cs pat` is true when `pat` is a leading segment of `cs`. -/
def listStartsWith : List Char → List Char → Bool
  | _, [] => true
  | [], _ :: _ => false
  | c :: cs, p :: ps => c = p && listStartsWith cs ps

/-- `listContainsSub cs pat`: `pat` occurs contiguously somewhere in `cs`. -/
def listContainsSub : List Char → List Char → Bool
  | [], pat => listStartsWith [] pat
  | c :: cs, pat => listStartsWith (c :: cs) pat || listContainsSub cs pat

/-- Python's `needle in hay` for strings. -/
def pyContains (hay needle : String) : Bool :=
  listContainsSub hay.toList needle.toList

/-- Python's `str.strip()`. -/
def pyStrip (s : String) : String :=
  ⟨((s.toList.dropWhile isPySpace).reverse.dropWhile isPySpace).reverse⟩

/-- Python's `f"{x}"` on an `Optional[str]`: `None` prints as `"None"`. -/
def pyOptStr : Option String → String
  | none => "None"
  | some s => s

/-! ## Data model (`models.py`) -/

/-- `models.SearchQuery`. -/
structure SearchQuery where
  query : String
  importance : Int := 1
  site_restrict : Option String := none
deriving Repr, DecidableEq

/-- `models.Source` (relevance scores, Python floats, modelled as ℚ). -/
structure Source where
  url : String
  title : String
  snippet : String
  content : String := ""
  content_type : String := ""
  relevance_score : ℚ := 0
  short_summary : String := ""
  research_topics : String := ""
  detailed_summary : String := ""
deriving Repr, DecidableEq

/-- A Google custom-search result item, as consumed by `conduct_research`
(`result.get('link')`, `result.get('title')`, `result.get('snippet')`). -/
structure SResult where
  link : String
  title : String
  snippet : String
deriving Repr, DecidableEq

/-- The query identity key of `conduct_research`:
`f"{current_query.query}:{current_query.site_restrict}"`. -/
def queryKey (q : SearchQuery) : String :=
  q.query ++ ":" ++ pyOptStr q.site_restrict

/-! ## Stable descending sort

Python's `list.sort(key=f, reverse=True)` is a stable sort placing larger
keys first; elements with equal keys keep their original relative order.
`sortDescBy` is an insertion sort with exactly that behaviour. -/

/-- Insert `x` before the first element whose key is `≤ f x` (so `x` lands
after every strictly larger element and before every equal-or-smaller one,
which is the stable position for an element coming before the tail). -/
def insertDescBy {α β : Type} [LinearOrder β] (f : α → β) (x : α) :
    List α → List α
  | [] => [x]
  | y :: ys => if f y ≤ f x then x :: y :: ys else y :: insertDescBy f x ys

/-- Stable sort by key `f`, descending: Python's `sort(key=f, reverse=True)`. -/
def sortDescBy {α β : Type} [LinearOrder β] (f : α → β) : List α → List α
  | [] => []
  | x :: xs => insertDescBy f x (sortDescBy f xs)


/-! ## Content extraction (`content_extraction.py`, `extract_content`)

The network fetch, the PDF parser and the HTML-to-text pipeline are external
collaborators; `FetchOutcome` enumerates how they can answer, and
`extract_content` maps each outcome to the `(content, content_type)` pair
the Python function returns on that path. -/

/-- Outcome of fetching a URL, as seen by `extract_content`'s branches. -/
inductive FetchOutcome where
  /-- `requests.get` (or anything else in the outer `try`) raised: the outer
  `except` branch. `e` is the exception's message. -/
  | fetchError (e : String)
  /-- Content-Type was `application/pdf` and `PyPDF2` extracted the pages'
  texts. -/
  | pdfOk (pages : List String)
  /-- Content-Type was `application/pdf` but `PyPDF2` raised: the inner
  `except` branch. -/
  | pdfError (e : String)
  /-- Any other Content-Type: the HTML branch. `text` is the result of the
  BeautifulSoup get_text / whitespace-normalisation pipeline. -/
  | htmlText (text : String)
deriving Repr, DecidableEq

/-- `content_extraction.extract_content`: URL → `(content, content_type)`.
Python returns `'pdf'` for both PDF branches (success and extraction error)
and `'error'` only when the fetch itself failed. -/
def extract_content : FetchOutcome → String × String
  | .fetchError e => ("[CONTENT EXTRACTION ERROR: " ++ e ++ "]", "error")
  | .pdfOk pages => ((pages.map (fun p => p ++ "\n")).foldl (· ++ ·) "", "pdf")
  | .pdfError e => ("[PDF EXTRACTION ERROR: " ++ e ++ "]", "pdf")
  | .htmlText text => (text, "html")

/-! ## Relevance evaluation (`source_evaluation.py`)

`_evaluate_content_chunk` sends a prompt to the LLM and post-processes the
response text.  The LLM call is the oracle: `Except String String` is either
the raised exception's message or the response text
(`response.content[0].text`).  The score extraction implements the regex
search `re.search(r'SCORE:\s*(\d+\.\d+|\d+)', result)`; the summary/topics
extraction implements `re.search(r'SUMMARY:(.*?)TOPICS:', result, DOTALL)`
and `re.search(r'TOPICS:(.*)', result, DOTALL)`. -/

def isDigitCh (c : Char) : Bool := '0' ≤ c && c ≤ '9'

/-- Numeric value of a digit string (most significant first). -/
def digitsToNat (ds : List Char) : ℕ :=
  ds.foldl (fun n c => 10 * n + (c.toNat - '0'.toNat)) 0

/-- Parse `(\d+\.\d+|\d+)` at the start of `cs` and return `float(group)` as
an exact rational: the greedy first alternative takes `\d+\.\d+` whenever a
dot with at least one digit follows the integer part, else `\d+` alone. -/
def parseScoreNumber (cs : List Char) : Option ℚ :=
  let d1 := cs.takeWhile isDigitCh
  if d1.isEmpty then none
  else
    match cs.dropWhile isDigitCh with
    | '.' :: rest2 =>
      let d2 := rest2.takeWhile isDigitCh
      if d2.isEmpty then some (digitsToNat d1)
      else some ((digitsToNat d1 : ℚ) + (digitsToNat d2 : ℚ) / (10 : ℚ) ^ d2.length)
    | _ => some (digitsToNat d1)

/-- Try the pattern `SCORE:\s*(\d+\.\d+|\d+)` anchored at the start of `cs`.
Since `\s` and `\d` are disjoint, the greedy `\s*` never backtracks: the
match succeeds exactly when a digit follows the maximal whitespace run. -/
def matchScoreAt (cs : List Char) : Option ℚ :=
  match cs with
  | 'S' :: 'C' :: 'O' :: 'R' :: 'E' :: ':' :: rest =>
      parseScoreNumber (rest.dropWhile isPySpace)
  | _ => none

/-- `re.search`: try the pattern at each position, leftmost match wins. -/
def searchScore : List Char → Option ℚ
  | [] => none
  | c :: cs =>
    match matchScoreAt (c :: cs) with
    | some v => some v
    | none => searchScore cs

/-- Score extraction of `_evaluate_content_chunk`:
`re.search(r'SCORE:\s*(\d+\.\d+|\d+)', result)` followed by `float(...)`. -/
def extractScore (result : String) : Option ℚ :=
  searchScore result.toList

/-- Index of the first occurrence of `pat` in `cs`, if any. -/
def findSub (pat : List Char) : List Char → Option ℕ
  | [] => if listStartsWith [] pat then some 0 else none
  | c :: rest =>
    if listStartsWith (c :: rest) pat then some 0
    else (findSub pat rest).map (fun n => n + 1)

/-- The characters after the first occurrence of `pat` in `cs`. -/
def afterFirst (cs pat : List Char) : Option (List Char) :=
  (findSub pat cs).map (fun n => cs.drop (n + pat.length))

/-- The characters before the first occurrence of `pat` in `cs`. -/
def beforeFirst (cs pat : List Char) : Option (List Char) :=
  (findSub pat cs).map (fun n => cs.take n)

/-- `re.search(r'SUMMARY:(.*?)TOPICS:', result, DOTALL)`, `group(1).strip()`:
the text strictly between the first `SUMMARY:` and the first `TOPICS:` after
it (the lazy `(.*?)` stops at the earliest `TOPICS:`). -/
def extractSummary (result : String) : Option String :=
  match afterFirst result.toList "SUMMARY:".toList with
  | none => none
  | some rest =>
    match beforeFirst rest "TOPICS:".toList with
    | none => none
    | some grp => some (pyStrip ⟨grp⟩)

/-- `re.search(r'TOPICS:(.*)', result, DOTALL)`, `group(1).strip()`. -/
def extractTopics (result : String) : Option String :=
  (afterFirst result.toList "TOPICS:".toList).map (fun grp => pyStrip ⟨grp⟩)

/-- `source_evaluation._evaluate_content_chunk`, response-processing part.
`response` is the LLM call's outcome: `.error e` when anything in the `try`
raised (network failure, missing content, ...), `.ok raw` with the raw
response text otherwise. On an exception the function returns the neutral
default `(0.5, "Error generating summary.", "Error generating research
topics.")`; when no score can be parsed from the response it scores `0.5`;
a parsed score is clamped into `[0, 1]` by `max(0.0, min(score, 1.0))`. -/
def evaluate_content_chunk (response : Except String String) :
    ℚ × String × String :=
  match response with
  -- the Python literal 0.5 is written mkRat 1 2 (the same rational) so that
  -- concrete runs evaluate inside the kernel
  | .error _ => (mkRat 1 2, "Error generating summary.", "Error generating research topics.")
  | .ok raw =>
    let result := pyStrip raw
    let score : ℚ :=
      match extractScore result with
      | some v => max 0 (min v 1)
      | none => mkRat 1 2
    let summary := (extractSummary result).getD "No summary available."
    let topics := (extractTopics result).getD "No research topics suggested."
    (score, summary, topics)

/-- Lines 81–90 of `source_evaluation.evaluate_source_relevance`: sort the
chunk scores descending (`chunk_scores.sort(reverse=True)`) and blend:
more than two chunks →
`chunk_scores[0]*0.5 + chunk_scores[1]*0.3 + sum(chunk_scores[2:])*0.2 / max(1, len(chunk_scores)-2)`,
otherwise `sum(chunk_scores) / len(chunk_scores)`.
Float literals 0.5/0.3/0.2 are modelled as the exact rationals they denote. -/
def combineChunkScores (chunk_scores : List ℚ) : ℚ :=
  let sorted := sortDescBy (fun x : ℚ => x) chunk_scores
  if 2 < sorted.length then
    sorted.headI * (1/2) + sorted.tail.headI * (3/10)
      + ((sorted.drop 2).sum * (1/5)) / ((max 1 (sorted.length - 2) : ℕ) : ℚ)
  else
    sorted.sum / (sorted.length : ℚ)

/-! ## The research orchestrator (`web_research_tool.py`, `conduct_research`)

The external collaborators of the loop are bundled as oracle functions:
`search` is `google_search` (already returns `[]` on failure), `extract` is
`extract_content` keyed by URL, `evaluate` is `evaluate_source_relevance`
applied to the freshly built source, and `followUps` is
`generate_follow_up_queries`, indexed by how many times it has been called
(an LLM call may answer anything, and differently each time). -/

structure Collaborators where
  search : String → Option String → List SResult
  extract : String → String × String
  evaluate : Source → ℚ × String × String
  followUps : ℕ → List SearchQuery

/-- The mutable state of the research loop: `self.search_queries`,
`self.completed_queries` (a set — only membership is used, so a list
suffices), `self.sources`, the local `search_iteration`, and a counter of
follow-up-generation calls (to index the `followUps` oracle). -/
structure RState where
  queue : List SearchQuery
  completed : List String
  sources : List Source
  iteration : ℕ
  genCalls : ℕ
deriving Repr, DecidableEq

/-- Trace of one pass of the while loop: either a silently skipped duplicate
query, or an executed search recording which URLs were fetched (content
extraction ran), which were evaluated (relevance scoring ran), and — when
follow-up generation was invoked — the `previous_queries` argument it was
given. -/
inductive REvent where
  | skipped (key : String)
  | executed (key : String) (fetched evaluated : List String)
      (followUp : Option (List String))
deriving Repr, DecidableEq

def isExecuted : REvent → Bool
  | .executed _ _ _ _ => true
  | .skipped _ => false

/-- Number of searches actually performed in a trace. -/
def countExec (evs : List REvent) : ℕ := (evs.filter isExecuted).length

/-- Lines 142–193: the `for result in search_results[:5]` body (the caller
passes the list already truncated to 5).  Returns the updated
`self.sources` plus the fetched and evaluated URLs, in processing order.
Mirrors, in order: the duplicate-URL `continue`, content extraction, the
`'ERROR' in content` `continue`, relevance evaluation, the
`relevance_score >= 0.5` append, and the
`len(self.sources) >= self.max_sources` break. -/
def processResults (C : Collaborators) (max_sources : ℕ) :
    List SResult → List Source → List Source × List String × List String
  | [], sources => (sources, [], [])
  | r :: rs, sources =>
    if sources.any (fun s => s.url == r.link) then
      processResults C max_sources rs sources
    else
      let content := (C.extract r.link).1
      let content_type := (C.extract r.link).2
      if pyContains content "ERROR" then
        let out := processResults C max_sources rs sources
        (out.1, r.link :: out.2.1, out.2.2)
      else
        let src0 : Source :=
          { url := r.link, title := r.title, snippet := r.snippet,
            content := content, content_type := content_type }
        let ev := C.evaluate src0
        let src := { src0 with
          relevance_score := ev.1
          short_summary := ev.2.1
          research_topics := ev.2.2 }
        -- `source.relevance_score >= 0.5`; 0.5 is written mkRat 1 2 (= 1/2)
        let sources' := if mkRat 1 2 ≤ ev.1 then sources ++ [src] else sources
        if max_sources ≤ sources'.length then
          (sources', [r.link], [r.link])
        else
          let out := processResults C max_sources rs sources'
          (out.1, r.link :: out.2.1, r.link :: out.2.2)

/-- Lines 200–203: the `previous_queries` argument of the follow-up call.
The source builds `[(f"{q.query}:{q.site_restrict}", q) for q in
self.search_queries]`, filters the pairs whose key is in
`self.completed_queries`, and maps to the query texts — note that it ranges
over the *pending queue*, not over the executed queries. -/
def previousQueries (search_queries : List SearchQuery)
    (completed : List String) : List String :=
  (((search_queries.map (fun q => (queryKey q, q))).filter
      (fun p => decide (p.1 ∈ completed))).map (fun p => p.2.query))

/-- Lines 120–125, iterated: pop queries off the front of the queue,
silently discarding (with a trace event) each one whose identity key is
already completed, until an executable query or the end of the queue is
reached.  These `continue` passes change nothing but the queue and do not
touch `search_iteration`. -/
def drainSkips (completed : List String) :
    List SearchQuery → List REvent × Option (SearchQuery × List SearchQuery)
  | [] => ([], none)
  | q :: rest =>
    if queryKey q ∈ completed then
      let out := drainSkips completed rest
      (REvent.skipped (queryKey q) :: out.1, out.2)
    else ([], some (q, rest))

/-- The while loop of lines 117–223.  `fuel` is the remaining iteration
budget `max_searches - search_iteration`: every executed search increments
`search_iteration`, so it decreases by exactly one per executed search,
which makes the recursion structural; duplicate-key skips are folded into
`drainSkips` (they only shorten the queue and the loop guard
`search_iteration < max_searches` cannot change across them). -/
def runLoopAux (C : Collaborators) (max_sources max_searches : ℕ) :
    ℕ → RState → RState × List REvent
  | 0, st => (st, [])
  | fuel + 1, st =>
    if st.iteration < max_searches then
      let d := drainSkips st.completed st.queue
      match d.2 with
      | none =>
        -- the queue emptied out while skipping duplicates: loop guard fails
        (⟨[], st.completed, st.sources, st.iteration, st.genCalls⟩, d.1)
      | some (q, rest) =>
        let key := queryKey q
        let results := C.search q.query q.site_restrict
        let pr := processResults C max_sources (results.take 5) st.sources
        -- line 196: completed set grows before follow-up generation
        let completed' := st.completed ++ [key]
        -- lines 199–221: follow-up generation, only under both budget tests
        let fu :=
          if pr.1.length < max_sources ∧ st.iteration < max_searches - 1 then
            let prev := previousQueries rest completed'
            let newQueries := (C.followUps st.genCalls).filter
              (fun nq => decide (queryKey nq ∉ completed'))
            (sortDescBy (fun q : SearchQuery => q.importance) (rest ++ newQueries),
             st.genCalls + 1, some prev)
          else (rest, st.genCalls, (none : Option (List String)))
        let st' : RState := ⟨fu.1, completed', pr.1, st.iteration + 1, fu.2.1⟩
        let out := runLoopAux C max_sources max_searches fuel st'
        (out.1, d.1 ++ REvent.executed key pr.2.1 pr.2.2 fu.2.2 :: out.2)
    else (st, [])

/-- The research loop started from state `st`. -/
def runLoop (C : Collaborators) (max_sources max_searches : ℕ)
    (st : RState) : RState × List REvent :=
  runLoopAux C max_sources max_searches (max_searches - st.iteration) st

/-- What a run of `conduct_research` produces, restricted to what the loop
determines: the final (sorted, truncated) sources, the registry as the loop
left it, the completed-query set, and the event trace. -/
structure RunResult where
  finalSources : List Source
  registry : List Source
  completed : List String
  events : List REvent
deriving Repr, DecidableEq

/-- `conduct_research`, research-loop part: seed the queue with the initial
queries sorted by importance descending (line 115), run the loop, then sort
the registry by relevance descending (line 226, a stable sort) and keep the
first `max_sources` entries (line 229). -/
def conduct_research (C : Collaborators) (max_sources max_searches : ℕ)
    (initial_queries : List SearchQuery) : RunResult :=
  let queue0 := sortDescBy (fun q : SearchQuery => q.importance) initial_queries
  let st0 : RState := ⟨queue0, [], [], 0, 0⟩
  let out := runLoop C max_sources max_searches st0
  let sorted := sortDescBy (fun s : Source => s.relevance_score) out.1.sources
  ⟨sorted.take max_sources, out.1.sources, out.1.completed, out.2⟩

/-- The invariant of sources accepted into the registry: scored at least 0.5,
free of the `ERROR` marker, and carrying exactly what extraction returned
for their URL. -/
def goodSource (C : Collaborators) (s : Source) : Prop :=
  mkRat 1 2 ≤ s.relevance_score ∧
  pyContains s.content "ERROR" = false ∧
  s.content = (C.extract s.url).1 ∧
  s.content_type = (C.extract s.url).2

/-! ## Concrete collaborator instances used in the scenario theorems -/

/-- Collaborators whose searches return no results (only the queue and
budget behaviour of the loop matters). -/
def emptySearchCollab : Collaborators :=
  { search := fun _ _ => []
    extract := fun _ => ("", "html")
    evaluate := fun _ => (0, "", "")
    followUps := fun _ => [] }

/-- Every query returns five results, all extracting cleanly and all scoring
0.9 (the max_sources=2 scenario of the spec). -/
def fiveResultsCollab : Collaborators :=
  { search := fun _ _ =>
      [⟨"u1", "t1", "s1"⟩, ⟨"u2", "t2", "s2"⟩, ⟨"u3", "t3", "s3"⟩,
       ⟨"u4", "t4", "s4"⟩, ⟨"u5", "t5", "s5"⟩]
    extract := fun u => ("content of " ++ u, "html")
    evaluate := fun _ => (mkRat 9 10, "sum", "top")
    followUps := fun _ => [] }

/-- The source `fiveResultsCollab` accepts for the first result. -/
def acceptedSource : Source :=
  ⟨"u1", "t1", "s1", "content of u1", "html", mkRat 9 10, "sum", "top", ""⟩

/-- Collaborators whose relevance evaluation always fails (the LLM call
raises), so every source is scored with the neutral default 0.5. -/
def failingEvalCollab : Collaborators :=
  { search := fun _ _ => [⟨"u1", "t1", "s1"⟩]
    extract := fun u => ("all good here " ++ u, "html")
    evaluate := fun _ => evaluate_content_chunk (Except.error "API timeout")
    followUps := fun _ => [] }

/-- Four URLs: a fetch failure (content_type `'error'`), a PDF whose text
extraction failed (content_type `'pdf'` but ERROR marker in the content),
an HTML page whose visible text happens to contain the word ERROR
(content_type `'html'`), and a clean page. -/
def errorMarkerCollab : Collaborators :=
  { search := fun _ _ =>
      [⟨"u_err", "t0", "s0"⟩, ⟨"u_pdf", "t1", "s1"⟩,
       ⟨"u_html", "t2", "s2"⟩, ⟨"u_ok", "t3", "s3"⟩]
    extract := fun u =>
      if u = "u_err" then extract_content (.fetchError "connection timed out")
      else if u = "u_pdf" then extract_content (.pdfError "bad xref")
      else if u = "u_html" then
        extract_content (.htmlText "the page screams ERROR loudly")
      else extract_content (.htmlText "a perfectly fine page")
    evaluate := fun _ => (1, "sum", "top")
    followUps := fun _ => [] }

/-! ## Helper lemmas -/

section SortLemmas

variable {α β : Type} [LinearOrder β] (f : α → β)

theorem insertDescBy_perm (x : α) (l : List α) :
    List.Perm (insertDescBy f x l) (x :: l) := by
  induction l with
  | nil => simp [insertDescBy]
  | cons y ys ih =>
    by_cases h : f y ≤ f x
    · simp [insertDescBy, h]
    · simp only [insertDescBy, if_neg h]
      exact List.Perm.trans (ih.cons y) (List.Perm.swap x y ys)

theorem sortDescBy_perm (l : List α) : List.Perm (sortDescBy f l) l := by
  induction l with
  | nil => simp [sortDescBy]
  | cons x xs ih =>
    exact List.Perm.trans (insertDescBy_perm f x _) (ih.cons x)

theorem mem_sortDescBy {x : α} {l : List α} :
    x ∈ sortDescBy f l ↔ x ∈ l :=
  (sortDescBy_perm f l).mem_iff

theorem insertDescBy_pairwise {x : α} {l : List α}
    (h : l.Pairwise (fun a b => f b ≤ f a)) :
    (insertDescBy f x l).Pairwise (fun a b => f b ≤ f a) := by
  induction l with
  | nil => simp [insertDescBy]
  | cons y ys ih =>
    rcases List.pairwise_cons.mp h with ⟨hy, hys⟩
    by_cases hle : f y ≤ f x
    · simp only [insertDescBy, if_pos hle]
      refine List.pairwise_cons.mpr ⟨?_, h⟩
      intro b hb
      rcases List.mem_cons.mp hb with hb | hb
      · subst hb; exact hle
      · exact le_trans (hy b hb) hle
    · simp only [insertDescBy, if_neg hle]
      refine List.pairwise_cons.mpr ⟨?_, ih hys⟩
      intro b hb
      have hb' : b ∈ x :: ys := (insertDescBy_perm f x ys).mem_iff.mp hb
      rcases List.mem_cons.mp hb' with hb' | hb'
      · subst hb'; exact le_of_not_le hle
      · exact hy b hb'

theorem sortDescBy_pairwise (l : List α) :
    (sortDescBy f l).Pairwise (fun a b => f b ≤ f a) := by
  induction l with
  | nil => simp [sortDescBy]
  | cons x xs ih => exact insertDescBy_pairwise f ih

/-- Stability, filter form: inserting `x` does not disturb the relative order
of elements sharing any key value — every element `insertDescBy` walks past
has a strictly larger key than `x`. -/
theorem insertDescBy_filter_eq (x : α) (l : List α) (c : β) :
    (insertDescBy f x l).filter (fun a => decide (f a = c)) =
      if f x = c then x :: l.filter (fun a => decide (f a = c))
      else l.filter (fun a => decide (f a = c)) := by
  induction l with
  | nil => by_cases h : f x = c <;> simp [insertDescBy, h]
  | cons y ys ih =>
    by_cases hle : f y ≤ f x
    · rw [insertDescBy, if_pos hle]
      simp only [List.filter_cons, decide_eq_true_eq]
    · rw [insertDescBy, if_neg hle]
      have hxy : f x < f y := lt_of_not_le hle
      simp only [List.filter_cons, decide_eq_true_eq, ih]
      by_cases hy : f y = c
      · have hx : ¬ f x = c := fun hx => (ne_of_lt hxy) (hx.trans hy.symm)
        simp [hy, hx]
      · by_cases hx : f x = c <;> simp [hy, hx]

/-- Stability of the whole sort: for every key value `c`, the elements whose
key equals `c` appear in the sorted list in their original order. -/
theorem sortDescBy_filter_eq (l : List α) (c : β) :
    (sortDescBy f l).filter (fun a => decide (f a = c)) =
      l.filter (fun a => decide (f a = c)) := by
  induction l with
  | nil => simp [sortDescBy]
  | cons x xs ih =>
    rw [sortDescBy, insertDescBy_filter_eq]
    simp only [List.filter_cons, decide_eq_true_eq, ih]

theorem sortDescBy_headI_max [Inhabited α] {l : List α} {x : α} (hx : x ∈ l) :
    f x ≤ f (sortDescBy f l).headI := by
  have hmem : x ∈ sortDescBy f l := (mem_sortDescBy f).mpr hx
  cases hsort : sortDescBy f l with
  | nil => rw [hsort] at hmem; cases hmem
  | cons y ys =>
    rw [hsort] at hmem
    rcases List.mem_cons.mp hmem with hmem | hmem
    · subst hmem; simp [hsort]
    · have hp := sortDescBy_pairwise f l
      rw [hsort] at hp
      have := (List.pairwise_cons.mp hp).1 x hmem
      simp [hsort, this]

end SortLemmas



theorem half_eq : mkRat 1 2 = 1/2 := by norm_num [Rat.mkRat_eq_div]

theorem listStartsWith_append {cs pat b : List Char}
    (h : listStartsWith cs pat = true) : listStartsWith (cs ++ b) pat = true := by
  induction pat generalizing cs with
  | nil => simp [listStartsWith]
  | cons p ps ih =>
    cases cs with
    | nil => simp [listStartsWith] at h
    | cons c cs' =>
      simp only [listStartsWith, Bool.and_eq_true] at h
      simp only [List.cons_append, listStartsWith, Bool.and_eq_true]
      exact ⟨h.1, ih h.2⟩

theorem listContainsSub_nil (cs : List Char) : listContainsSub cs [] = true := by
  cases cs <;> simp [listContainsSub, listStartsWith]

theorem listContainsSub_append_left {a pat : List Char} (b : List Char)
    (h : listContainsSub a pat = true) : listContainsSub (a ++ b) pat = true := by
  induction a with
  | nil =>
    cases pat with
    | nil => exact listContainsSub_nil b
    | cons p ps => simp [listContainsSub, listStartsWith] at h
  | cons c a' ih =>
    simp only [listContainsSub, Bool.or_eq_true] at h
    rcases h with h | h
    · have := listStartsWith_append (b := b) h
      simp only [List.cons_append, listContainsSub, Bool.or_eq_true] at this ⊢
      simpa [List.cons_append] using Or.inl this
    · simp only [List.cons_append, listContainsSub, Bool.or_eq_true]
      exact Or.inr (ih h)

theorem toList_append (a b : String) : (a ++ b).toList = a.toList ++ b.toList := by
  simp [String.toList]

/-- Both error paths of `extract_content` leave the `ERROR` marker in the
content: the fetch-failure path... -/
theorem fetchError_marker (e : String) :
    pyContains (extract_content (.fetchError e)).1 "ERROR" = true := by
  have h1 : listContainsSub "[CONTENT EXTRACTION ERROR: ".toList "ERROR".toList = true := by
    decide
  have h2 := listContainsSub_append_left (b := e.toList) h1
  have h3 := listContainsSub_append_left (b := "]".toList) h2
  simpa [extract_content, pyContains, toList_append, List.append_assoc] using h3

/-- ... and the PDF-failure path (whose content_type is `'pdf'`, not
`'error'`). -/
theorem pdfError_marker (e : String) :
    pyContains (extract_content (.pdfError e)).1 "ERROR" = true := by
  have h1 : listContainsSub "[PDF EXTRACTION ERROR: ".toList "ERROR".toList = true := by
    decide
  have h2 := listContainsSub_append_left (b := e.toList) h1
  have h3 := listContainsSub_append_left (b := "]".toList) h2
  simpa [extract_content, pyContains, toList_append, List.append_assoc] using h3

/-- `extract_content` reports a fetch failure (content_type `'error'`) only
with the `ERROR` marker in the content — the contract the orchestrator's
substring test relies on. -/
theorem extract_content_error_marker (o : FetchOutcome)
    (h : (extract_content o).2 = "error") :
    pyContains (extract_content o).1 "ERROR" = true := by
  cases o with
  | fetchError e => exact fetchError_marker e
  | pdfOk pages => simp [extract_content] at h
  | pdfError e => simp [extract_content] at h
  | htmlText t => simp [extract_content] at h

theorem processResults_good (C : Collaborators) (ms : ℕ) :
    ∀ (rs : List SResult) (sources : List Source),
      (∀ s ∈ sources, goodSource C s) →
      ∀ s ∈ (processResults C ms rs sources).1, goodSource C s := by
  intro rs
  induction rs with
  | nil => intro sources h s hs; simp only [processResults] at hs; exact h s hs
  | cons r rs ih =>
    intro sources h s hs
    simp only [processResults] at hs
    by_cases hdup : sources.any (fun s => s.url == r.link) = true
    · rw [if_pos hdup] at hs; exact ih sources h s hs
    · rw [if_neg hdup] at hs
      by_cases herr : pyContains (C.extract r.link).1 "ERROR" = true
      · rw [if_pos herr] at hs
        exact ih sources h s hs
      · rw [if_neg herr] at hs
        have herr' : pyContains (C.extract r.link).1 "ERROR" = false := by
          simpa using herr
        split_ifs at hs with h1 h2 h3
        · rcases List.mem_append.mp hs with hmem | hmem
          · exact h s hmem
          · rcases List.mem_singleton.mp hmem with rfl
            exact ⟨h1, herr', rfl, rfl⟩
        · refine ih _ ?_ s hs
          intro t ht
          rcases List.mem_append.mp ht with hmem | hmem
          · exact h t hmem
          · rcases List.mem_singleton.mp hmem with rfl
            exact ⟨h1, herr', rfl, rfl⟩
        · exact h s hs
        · exact ih _ h s hs

theorem processResults_fetched_len (C : Collaborators) (ms : ℕ) :
    ∀ (rs : List SResult) (sources : List Source),
      (processResults C ms rs sources).2.1.length ≤ rs.length ∧
      (processResults C ms rs sources).2.2.length ≤ rs.length := by
  intro rs
  induction rs with
  | nil => intro sources; simp [processResults]
  | cons r rs ih =>
    intro sources
    simp only [processResults]
    by_cases hdup : sources.any (fun s => s.url == r.link) = true
    · rw [if_pos hdup]
      exact ⟨le_trans (ih sources).1 (Nat.le_succ _),
        le_trans (ih sources).2 (Nat.le_succ _)⟩
    · rw [if_neg hdup]
      by_cases herr : pyContains (C.extract r.link).1 "ERROR" = true
      · rw [if_pos herr]
        exact ⟨Nat.succ_le_succ (ih sources).1,
          le_trans (ih sources).2 (Nat.le_succ _)⟩
      · rw [if_neg herr]
        split_ifs with h1 h2 h3
        · simp
        · exact ⟨Nat.succ_le_succ (ih _).1, Nat.succ_le_succ (ih _).2⟩
        · simp
        · exact ⟨Nat.succ_le_succ (ih _).1, Nat.succ_le_succ (ih _).2⟩

theorem processResults_evaluated_ok (C : Collaborators) (ms : ℕ) :
    ∀ (rs : List SResult) (sources : List Source),
      ∀ u ∈ (processResults C ms rs sources).2.2,
        pyContains (C.extract u).1 "ERROR" = false := by
  intro rs
  induction rs with
  | nil => intro sources u hu; simp [processResults] at hu
  | cons r rs ih =>
    intro sources u hu
    simp only [processResults] at hu
    by_cases hdup : sources.any (fun s => s.url == r.link) = true
    · rw [if_pos hdup] at hu; exact ih sources u hu
    · rw [if_neg hdup] at hu
      by_cases herr : pyContains (C.extract r.link).1 "ERROR" = true
      · rw [if_pos herr] at hu
        exact ih sources u hu
      · rw [if_neg herr] at hu
        have herr' : pyContains (C.extract r.link).1 "ERROR" = false := by
          simpa using herr
        split_ifs at hu
        · rcases List.mem_singleton.mp hu with rfl; exact herr'
        · rcases List.mem_cons.mp hu with rfl | hu
          · exact herr'
          · exact ih _ u hu
        · rcases List.mem_singleton.mp hu with rfl; exact herr'
        · rcases List.mem_cons.mp hu with rfl | hu
          · exact herr'
          · exact ih _ u hu

theorem drainSkips_events (completed : List String) :
    ∀ (qs : List SearchQuery) (ev : REvent),
      ev ∈ (drainSkips completed qs).1 → ∃ k, ev = REvent.skipped k := by
  intro qs
  induction qs with
  | nil => intro ev hev; simp [drainSkips] at hev
  | cons q rest ih =>
    intro ev hev
    simp only [drainSkips] at hev
    by_cases hk : queryKey q ∈ completed
    · rw [if_pos hk] at hev
      rcases List.mem_cons.mp hev with rfl | hev
      · exact ⟨queryKey q, rfl⟩
      · exact ih ev hev
    · rw [if_neg hk] at hev
      simp at hev

theorem countExec_append (a b : List REvent) :
    countExec (a ++ b) = countExec a + countExec b := by
  simp [countExec, List.filter_append]

theorem countExec_cons_executed (k : String) (f e : List String)
    (fu : Option (List String)) (evs : List REvent) :
    countExec (REvent.executed k f e fu :: evs) = countExec evs + 1 := by
  simp [countExec, List.filter_cons, isExecuted]

theorem countExec_drainSkips (completed : List String) :
    ∀ qs : List SearchQuery, countExec (drainSkips completed qs).1 = 0 := by
  intro qs
  induction qs with
  | nil => simp [drainSkips, countExec]
  | cons q rest ih =>
    simp only [drainSkips]
    by_cases hk : queryKey q ∈ completed
    · rw [if_pos hk]
      simp [countExec, List.filter_cons, isExecuted] at ih ⊢
      exact ih
    · rw [if_neg hk]
      simp [countExec]

theorem runLoopAux_good (C : Collaborators) (ms msr : ℕ) :
    ∀ (fuel : ℕ) (st : RState),
      (∀ s ∈ st.sources, goodSource C s) →
      ∀ s ∈ (runLoopAux C ms msr fuel st).1.sources, goodSource C s := by
  intro fuel
  induction fuel with
  | zero =>
    intro st h s hs
    simp only [runLoopAux] at hs
    exact h s hs
  | succ fuel ih =>
    intro st h s hs
    simp only [runLoopAux] at hs
    by_cases hit : st.iteration < msr
    · rw [if_pos hit] at hs
      rcases hd : (drainSkips st.completed st.queue).2 with _ | ⟨q, rest⟩
      · rw [hd] at hs
        exact h s hs
      · rw [hd] at hs
        exact ih _ (processResults_good C ms _ _ h) s hs
    · rw [if_neg hit] at hs
      exact h s hs

theorem runLoopAux_exec_event (C : Collaborators) (ms msr : ℕ) :
    ∀ (fuel : ℕ) (st : RState) (k : String) (f e : List String)
      (fu : Option (List String)),
      REvent.executed k f e fu ∈ (runLoopAux C ms msr fuel st).2 →
      f.length ≤ 5 ∧ e.length ≤ 5 ∧
        ∀ u ∈ e, pyContains (C.extract u).1 "ERROR" = false := by
  intro fuel
  induction fuel with
  | zero => intro st k f e fu hev; simp [runLoopAux] at hev
  | succ fuel ih =>
    intro st k f e fu hev
    simp only [runLoopAux] at hev
    by_cases hit : st.iteration < msr
    · rw [if_pos hit] at hev
      rcases hd : (drainSkips st.completed st.queue).2 with _ | ⟨q, rest⟩
      · rw [hd] at hev
        rcases drainSkips_events st.completed st.queue _ hev with ⟨k', hk'⟩
        cases hk'
      · rw [hd] at hev
        rcases List.mem_append.mp hev with hev | hev
        · rcases drainSkips_events st.completed st.queue _ hev with ⟨k', hk'⟩
          cases hk'
        · rcases List.mem_cons.mp hev with heq | hev
          · have hf : f = (processResults C ms
                ((C.search q.query q.site_restrict).take 5) st.sources).2.1 := by
              injection heq with h1 h2 h3 h4
            have he : e = (processResults C ms
                ((C.search q.query q.site_restrict).take 5) st.sources).2.2 := by
              injection heq with h1 h2 h3 h4
            have hlen := processResults_fetched_len C ms
              ((C.search q.query q.site_restrict).take 5) st.sources
            have htake : ((C.search q.query q.site_restrict).take 5).length ≤ 5 :=
              by simp
            refine ⟨?_, ?_, ?_⟩
            · rw [hf]; exact le_trans hlen.1 htake
            · rw [he]; exact le_trans hlen.2 htake
            · rw [he]
              exact processResults_evaluated_ok C ms _ _
          · exact ih _ k f e fu hev
    · rw [if_neg hit] at hev
      simp at hev

theorem runLoopAux_count (C : Collaborators) (ms msr : ℕ) :
    ∀ (fuel : ℕ) (st : RState),
      countExec (runLoopAux C ms msr fuel st).2 ≤ fuel ∧
      (runLoopAux C ms msr fuel st).1.iteration =
        st.iteration + countExec (runLoopAux C ms msr fuel st).2 := by
  intro fuel
  induction fuel with
  | zero => intro st; simp [runLoopAux, countExec]
  | succ fuel ih =>
    intro st
    by_cases hit : st.iteration < msr
    · rcases hd : (drainSkips st.completed st.queue).2 with _ | ⟨q, rest⟩
      · simp only [runLoopAux, if_pos hit, hd]
        simp [countExec_drainSkips]
      · simp only [runLoopAux, if_pos hit, hd]
        rw [countExec_append, countExec_drainSkips, countExec_cons_executed]
        constructor
        · simpa using Nat.succ_le_succ (ih _).1
        · rw [(ih _).2]
          simp
          omega
    · simp only [runLoopAux, if_neg hit]
      simp [countExec]

theorem runLoopAux_terminates (C : Collaborators) (ms msr : ℕ) :
    ∀ (fuel : ℕ) (st : RState),
      msr ≤ st.iteration + fuel →
      msr ≤ (runLoopAux C ms msr fuel st).1.iteration ∨
        (runLoopAux C ms msr fuel st).1.queue = [] := by
  intro fuel
  induction fuel with
  | zero =>
    intro st h
    simp only [runLoopAux]
    left; simpa using h
  | succ fuel ih =>
    intro st h
    by_cases hit : st.iteration < msr
    · rcases hd : (drainSkips st.completed st.queue).2 with _ | ⟨q, rest⟩
      · simp only [runLoopAux, if_pos hit, hd]
        right; trivial
      · simp only [runLoopAux, if_pos hit, hd]
        refine ih _ ?_
        show msr ≤ st.iteration + 1 + fuel
        omega
    · simp only [runLoopAux, if_neg hit]
      left; omega

/-- Popping a query whose key is already completed only removes it from the
queue and records a skip event: searches, sources, the completed set, the
iteration counter and the generation counter are untouched. -/
theorem runLoop_skip (C : Collaborators) (ms msr : ℕ) (st : RState)
    (q : SearchQuery) (rest : List SearchQuery)
    (hq : st.queue = q :: rest) (hk : queryKey q ∈ st.completed)
    (hit : st.iteration < msr) :
    runLoop C ms msr st =
      ((runLoop C ms msr { st with queue := rest }).1,
        REvent.skipped (queryKey q) :: (runLoop C ms msr { st with queue := rest }).2) := by
  obtain ⟨n, hn⟩ : ∃ n, msr - st.iteration = n + 1 :=
    ⟨msr - st.iteration - 1, by omega⟩
  have hdrain : drainSkips st.completed st.queue =
      (REvent.skipped (queryKey q) :: (drainSkips st.completed rest).1,
        (drainSkips st.completed rest).2) := by
    rw [hq]; simp [drainSkips, hk]
  rcases hd2 : (drainSkips st.completed rest).2 with _ | ⟨q2, rest2⟩
  · simp only [runLoop, hn, runLoopAux, if_pos hit, hdrain, hd2]
  · simp only [runLoop, hn, runLoopAux, if_pos hit, hdrain, hd2, List.cons_append]

theorem conduct_research_registry_good (C : Collaborators) (ms msr : ℕ)
    (init : List SearchQuery) :
    ∀ s ∈ (conduct_research C ms msr init).registry, goodSource C s := by
  intro s hs
  simp only [conduct_research] at hs
  exact runLoopAux_good C ms msr _ _ (by simp) s hs

theorem conduct_research_final_sub (C : Collaborators) (ms msr : ℕ)
    (init : List SearchQuery) :
    ∀ s ∈ (conduct_research C ms msr init).finalSources,
      s ∈ (conduct_research C ms msr init).registry := by
  intro s hs
  simp only [conduct_research] at hs ⊢
  exact (mem_sortDescBy _).mp (List.take_subset _ _ hs)

/-- The core of the `'ERROR' in content` skip: a URL whose extracted content
contains the `ERROR` substring is never relevance-evaluated and no source
with that URL ever enters the registry (hence neither the final list). -/
theorem errorContent_skipped (C : Collaborators) (ms msr : ℕ)
    (init : List SearchQuery) (url : String)
    (h : pyContains (C.extract url).1 "ERROR" = true) :
    (∀ (k : String) (f e : List String) (fu : Option (List String)),
        REvent.executed k f e fu ∈ (conduct_research C ms msr init).events →
        url ∉ e) ∧
    (∀ s ∈ (conduct_research C ms msr init).registry, s.url ≠ url) ∧
    (∀ s ∈ (conduct_research C ms msr init).finalSources, s.url ≠ url) := by
  have hreg : ∀ s ∈ (conduct_research C ms msr init).registry, s.url ≠ url := by
    intro s hs heq
    rcases conduct_research_registry_good C ms msr init s hs with ⟨_, hfree, hcontent, _⟩
    rw [hcontent, heq, h] at hfree
    cases hfree
  refine ⟨?_, hreg, ?_⟩
  · intro k f e fu hev hmem
    have hok : pyContains (C.extract url).1 "ERROR" = false := by
      have := runLoopAux_exec_event C ms msr _ _ k f e fu (by
        simpa [conduct_research] using hev)
      exact this.2.2 url hmem
    rw [h] at hok
    cases hok
  · intro s hs
    exact hreg s (conduct_research_final_sub C ms msr init s hs)

/-! ## Claim theorems -/

/-- C1: evaluation of the code at the failing input (one initial query
`q1` with importance 5, `max_sources = 1`, `max_searches = 2`, searches
returning no results).  Follow-up generation is invoked at the right moment
(0 accepted sources < 1 and iteration 0 < max_searches - 1), but the
`previous_queries` argument it receives is `[]` — the comprehension of
lines 200–203 filters the queries still *pending in the queue* by
completed keys, and the executed query has left the queue — although the
executed query `q1` is in the completed set, so the claimed and documented
"list of completed query texts" is `["q1"]`, not `[]`. -/
theorem C1_followup_previous_queries_failing_input :
    (conduct_research emptySearchCollab 1 2 [⟨"q1", 5, none⟩]).events =
      [REvent.executed "q1:None" [] [] (some [])] ∧
    (conduct_research emptySearchCollab 1 2 [⟨"q1", 5, none⟩]).completed =
      ["q1:None"] ∧
    queryKey ⟨"q1", 5, none⟩ = "q1:None" ∧
    (([⟨"q1", 5, none⟩] : List SearchQuery).filter
        (fun q => decide (queryKey q ∈ ["q1:None"]))).map (fun q => q.query) =
      ["q1"] ∧
    (some ([] : List String) ≠ some ["q1"]) := by decide

/-- C2: for every run, the final source list has at most `max_sources`
entries and every final source scores at least 0.5 and is free of the
extraction-error marker; moreover every source the loop ever admitted into
the registry scores at least 0.5, has no `ERROR` marker in its content, and
carries exactly the content and content type extraction returned for its
URL (so a source whose extraction reported an error is never appended). -/
theorem C2_source_budget_and_threshold :
    ∀ (C : Collaborators) (ms msr : ℕ) (init : List SearchQuery),
      (conduct_research C ms msr init).finalSources.length ≤ ms ∧
      (∀ s ∈ (conduct_research C ms msr init).finalSources,
          1/2 ≤ s.relevance_score ∧ pyContains s.content "ERROR" = false) ∧
      (∀ s ∈ (conduct_research C ms msr init).registry,
          1/2 ≤ s.relevance_score ∧ pyContains s.content "ERROR" = false ∧
          s.content = (C.extract s.url).1 ∧
          s.content_type = (C.extract s.url).2) := by
  intro C ms msr init
  have hreg : ∀ s ∈ (conduct_research C ms msr init).registry,
      1/2 ≤ s.relevance_score ∧ pyContains s.content "ERROR" = false ∧
      s.content = (C.extract s.url).1 ∧ s.content_type = (C.extract s.url).2 := by
    intro s hs
    rcases conduct_research_registry_good C ms msr init s hs with ⟨h1, h2, h3, h4⟩
    exact ⟨half_eq ▸ h1, h2, h3, h4⟩
  refine ⟨?_, ?_, hreg⟩
  · simp only [conduct_research, List.length_take]
    exact Nat.min_le_left _ _
  · intro s hs
    rcases hreg s (conduct_research_final_sub C ms msr init s hs) with ⟨h1, h2, _, _⟩
    exact ⟨h1, h2⟩

/-- C2 witness: a concrete accepted source of a concrete run satisfies the
threshold and marker-freedom guarantees. -/
theorem C2_source_budget_and_threshold_witness :
    acceptedSource ∈
      (conduct_research fiveResultsCollab 2 5 [⟨"q", 5, none⟩]).finalSources ∧
    (1/2 ≤ acceptedSource.relevance_score ∧
      pyContains acceptedSource.content "ERROR" = false) :=
  ⟨by decide,
    (C2_source_budget_and_threshold fiveResultsCollab 2 5 [⟨"q", 5, none⟩]).2.1
      acceptedSource (by decide)⟩

/-- C3: finalization sorts the registry by relevance score descending with a
stable sort and truncates to the first `max_sources` entries: the final list
is exactly the `max_sources`-prefix of the sorted registry, the sorted
registry is pairwise descending, is a permutation of the registry, and for
every score value the sources carrying it keep their discovery order
(filter-stability). -/
theorem C3_final_sort_stable_truncate :
    ∀ (C : Collaborators) (ms msr : ℕ) (init : List SearchQuery),
      (conduct_research C ms msr init).finalSources =
        (sortDescBy (fun s : Source => s.relevance_score)
          (conduct_research C ms msr init).registry).take ms ∧
      (sortDescBy (fun s : Source => s.relevance_score)
          (conduct_research C ms msr init).registry).Pairwise
        (fun a b => b.relevance_score ≤ a.relevance_score) ∧
      List.Perm
        (sortDescBy (fun s : Source => s.relevance_score)
          (conduct_research C ms msr init).registry)
        (conduct_research C ms msr init).registry ∧
      ∀ c : ℚ,
        (sortDescBy (fun s : Source => s.relevance_score)
            (conduct_research C ms msr init).registry).filter
          (fun s => decide (s.relevance_score = c)) =
        (conduct_research C ms msr init).registry.filter
          (fun s => decide (s.relevance_score = c)) := by
  intro C ms msr init
  refine ⟨rfl, sortDescBy_pairwise _ _, sortDescBy_perm _ _, ?_⟩
  intro c
  exact sortDescBy_filter_eq _ _ c

/-- C4: a popped query whose identity key is already completed is discarded
silently: the run is the run on the remaining queue with only a skip event
prepended — no search, no source change, no completed-set change and no
iteration increment.  Scenario: with queue `[q1 importance 5, q1 importance
3]` (same identity key) exactly one search is executed; the second `q1` is
dropped with a skip event. -/
theorem C4_duplicate_query_skipped :
    (∀ (C : Collaborators) (ms msr : ℕ) (st : RState) (q : SearchQuery)
        (rest : List SearchQuery),
        st.queue = q :: rest → queryKey q ∈ st.completed →
        st.iteration < msr →
        runLoop C ms msr st =
          ((runLoop C ms msr { st with queue := rest }).1,
            REvent.skipped (queryKey q) ::
              (runLoop C ms msr { st with queue := rest }).2)) ∧
    (conduct_research emptySearchCollab 10 5
        [⟨"q1", 5, none⟩, ⟨"q1", 3, none⟩]).events =
      [REvent.executed "q1:None" [] [] (some ["q1"]),
        REvent.skipped "q1:None"] := by
  refine ⟨?_, by decide⟩
  intro C ms msr st q rest hq hk hit
  exact runLoop_skip C ms msr st q rest hq hk hit

/-- C4 witness: the skip equation applied at a concrete state whose front
query is already completed. -/
theorem C4_duplicate_query_skipped_witness :
    ((⟨[⟨"q1", 5, none⟩], ["q1:None"], [], 0, 0⟩ : RState).queue =
      ⟨"q1", 5, none⟩ :: []) ∧
    queryKey ⟨"q1", 5, none⟩ ∈
      (⟨[⟨"q1", 5, none⟩], ["q1:None"], [], 0, 0⟩ : RState).completed ∧
    ((⟨[⟨"q1", 5, none⟩], ["q1:None"], [], 0, 0⟩ : RState).iteration < 5) ∧
    runLoop emptySearchCollab 10 5 ⟨[⟨"q1", 5, none⟩], ["q1:None"], [], 0, 0⟩ =
      ((runLoop emptySearchCollab 10 5 ⟨[], ["q1:None"], [], 0, 0⟩).1,
        REvent.skipped (queryKey ⟨"q1", 5, none⟩) ::
          (runLoop emptySearchCollab 10 5 ⟨[], ["q1:None"], [], 0, 0⟩).2) :=
  ⟨rfl, by decide, by decide,
    C4_duplicate_query_skipped.1 emptySearchCollab 10 5
      ⟨[⟨"q1", 5, none⟩], ["q1:None"], [], 0, 0⟩ ⟨"q1", 5, none⟩ []
      rfl (by decide) (by decide)⟩

/-- C5: every executed search fetches and evaluates at most 5 results (the
top-5 slice), and the result loop breaks as soon as the registry reaches
`max_sources`: in the scenario (`max_sources = 2`, one query returning five
results all scoring 0.9) exactly the first two results, in result order, are
fetched, evaluated and accepted — the remaining three are never fetched or
scored. -/
theorem C5_top5_and_early_break :
    (∀ (C : Collaborators) (ms msr : ℕ) (st : RState) (k : String)
        (f e : List String) (fu : Option (List String)),
        REvent.executed k f e fu ∈ (runLoop C ms msr st).2 →
        f.length ≤ 5 ∧ e.length ≤ 5) ∧
    (conduct_research fiveResultsCollab 2 5 [⟨"q", 5, none⟩]).events =
      [REvent.executed "q:None" ["u1", "u2"] ["u1", "u2"] none] ∧
    (conduct_research fiveResultsCollab 2 5 [⟨"q", 5, none⟩]).registry.map
        (fun s => s.url) = ["u1", "u2"] ∧
    (conduct_research fiveResultsCollab 2 5 [⟨"q", 5, none⟩]).finalSources.map
        (fun s => s.url) = ["u1", "u2"] := by
  refine ⟨?_, by decide, by decide, by decide⟩
  intro C ms msr st k f e fu hev
  have h := runLoopAux_exec_event C ms msr (msr - st.iteration) st k f e fu hev
  exact ⟨h.1, h.2.1⟩

/-- C5 witness: the length bounds applied at the concrete executed event of
the scenario run. -/
theorem C5_top5_and_early_break_witness :
    REvent.executed "q:None" ["u1", "u2"] ["u1", "u2"] none ∈
      (runLoop fiveResultsCollab 2 5 ⟨[⟨"q", 5, none⟩], [], [], 0, 0⟩).2 ∧
    ((["u1", "u2"] : List String).length ≤ 5 ∧
      (["u1", "u2"] : List String).length ≤ 5) :=
  ⟨by decide,
    C5_top5_and_early_break.1 fiveResultsCollab 2 5
      ⟨[⟨"q", 5, none⟩], [], [], 0, 0⟩ "q:None" ["u1", "u2"] ["u1", "u2"] none
      (by decide)⟩

/-- C6: when the relevance-evaluation LLM call raises, the chunk evaluator
returns the neutral default 0.5; when the call succeeds but no score can be
parsed from the response, it likewise returns 0.5; and because the
orchestrator's acceptance test is `score >= 0.5` (boundary inclusive), a
run whose evaluator always fails accepts the source with score exactly
0.5. -/
theorem C6_neutral_default_and_inclusive_boundary :
    (∀ e : String, (evaluate_content_chunk (Except.error e)).1 = 1/2) ∧
    (∀ raw : String, extractScore (pyStrip raw) = none →
        (evaluate_content_chunk (Except.ok raw)).1 = 1/2) ∧
    (conduct_research failingEvalCollab 3 1 [⟨"q", 5, none⟩]).finalSources.map
        (fun s => s.relevance_score) = [1/2] ∧
    (conduct_research failingEvalCollab 3 1 [⟨"q", 5, none⟩]).finalSources.map
        (fun s => s.url) = ["u1"] := by
  refine ⟨?_, ?_, ?_, by decide⟩
  · intro e
    show mkRat 1 2 = 1/2
    exact half_eq
  · intro raw h
    show (evaluate_content_chunk (Except.ok raw)).1 = 1/2
    simp only [evaluate_content_chunk, h]
    exact half_eq
  · have h : (conduct_research failingEvalCollab 3 1 [⟨"q", 5, none⟩]).finalSources.map
        (fun s => s.relevance_score) = [mkRat 1 2] := by decide
    rw [h, half_eq]

/-- C6 witness: a response with no parsable score yields the neutral 0.5. -/
theorem C6_neutral_default_and_inclusive_boundary_witness :
    extractScore (pyStrip "The document does not mention any rating.") = none ∧
    (evaluate_content_chunk
        (Except.ok "The document does not mention any rating.")).1 = 1/2 :=
  ⟨by decide,
    C6_neutral_default_and_inclusive_boundary.2.1
      "The document does not mention any rating." (by decide)⟩

/-- C7: `extract_content` returns content_type `'error'` only with the
`ERROR` marker in the content, and a search result whose extraction is an
`extract_content` outcome with content_type `'error'` is never
relevance-evaluated and never enters the registry (nor the final list),
regardless of any score the evaluator might have assigned. -/
theorem C7_error_type_skipped :
    (∀ o : FetchOutcome, (extract_content o).2 = "error" →
        pyContains (extract_content o).1 "ERROR" = true) ∧
    (∀ (C : Collaborators) (ms msr : ℕ) (init : List SearchQuery)
        (url : String) (o : FetchOutcome),
        C.extract url = extract_content o →
        (C.extract url).2 = "error" →
        (∀ (k : String) (f e : List String) (fu : Option (List String)),
            REvent.executed k f e fu ∈ (conduct_research C ms msr init).events →
            url ∉ e) ∧
        (∀ s ∈ (conduct_research C ms msr init).registry, s.url ≠ url) ∧
        (∀ s ∈ (conduct_research C ms msr init).finalSources, s.url ≠ url)) := by
  refine ⟨extract_content_error_marker, ?_⟩
  intro C ms msr init url o ho herrtype
  have hmark : pyContains (C.extract url).1 "ERROR" = true := by
    rw [ho]
    exact extract_content_error_marker o (ho ▸ herrtype)
  exact errorContent_skipped C ms msr init url hmark

/-- C7 witness: in the concrete run, the URL whose fetch failed (content
type `'error'`) never appears in the registry. -/
theorem C7_error_type_skipped_witness :
    errorMarkerCollab.extract "u_err" =
      extract_content (FetchOutcome.fetchError "connection timed out") ∧
    (errorMarkerCollab.extract "u_err").2 = "error" ∧
    (∀ s ∈ (conduct_research errorMarkerCollab 5 1 [⟨"q", 5, none⟩]).registry,
        s.url ≠ "u_err") :=
  ⟨rfl, rfl,
    (C7_error_type_skipped.2 errorMarkerCollab 5 1 [⟨"q", 5, none⟩] "u_err"
        (FetchOutcome.fetchError "connection timed out") rfl rfl).2.1⟩

/-- C8: the loop always terminates — the final state falsifies the loop
guard (iteration budget exhausted or queue empty) — the number of executed
searches never exceeds the remaining budget `max_searches - iteration` (so
at most `max_searches` from a fresh run), and the iteration counter counts
exactly the executed searches: every pass is either a pure queue-pop skip
or one executed search incrementing the counter. -/
theorem C8_termination_and_iteration_bound :
    (∀ (C : Collaborators) (ms msr : ℕ) (st : RState),
        countExec (runLoop C ms msr st).2 ≤ msr - st.iteration ∧
        (runLoop C ms msr st).1.iteration =
          st.iteration + countExec (runLoop C ms msr st).2 ∧
        (msr ≤ (runLoop C ms msr st).1.iteration ∨
          (runLoop C ms msr st).1.queue = [])) ∧
    (∀ (C : Collaborators) (ms msr : ℕ) (init : List SearchQuery),
        countExec (conduct_research C ms msr init).events ≤ msr) := by
  constructor
  · intro C ms msr st
    refine ⟨(runLoopAux_count C ms msr _ st).1, (runLoopAux_count C ms msr _ st).2, ?_⟩
    exact runLoopAux_terminates C ms msr _ st (by omega)
  · intro C ms msr init
    have h := (runLoopAux_count C ms msr (msr - 0)
      (⟨sortDescBy (fun q : SearchQuery => q.importance) init, [], [], 0, 0⟩ : RState)).1
    simpa [conduct_research, runLoop] using h

/-- C9: with more than two chunks the combined relevance score is
(highest × 0.5) + (second-highest × 0.3) + (mean of the remaining chunk
scores × 0.2) — the sorted list is genuinely descending, a permutation of
the chunk scores, and its head bounds them all — while with one or two
chunks the combined score is the plain average. -/
theorem C9_chunk_score_weighting :
    (∀ scores : List ℚ, 2 < scores.length →
      combineChunkScores scores =
          (sortDescBy (fun x : ℚ => x) scores).headI * (1/2)
          + (sortDescBy (fun x : ℚ => x) scores).tail.headI * (3/10)
          + (((sortDescBy (fun x : ℚ => x) scores).drop 2).sum
              / ((scores.length : ℚ) - 2)) * (1/5) ∧
        (∀ x ∈ scores, x ≤ (sortDescBy (fun x : ℚ => x) scores).headI) ∧
        List.Perm (sortDescBy (fun x : ℚ => x) scores) scores ∧
        (sortDescBy (fun x : ℚ => x) scores).Pairwise (fun a b : ℚ => b ≤ a)) ∧
    (∀ scores : List ℚ, scores ≠ [] → scores.length ≤ 2 →
      combineChunkScores scores = scores.sum / (scores.length : ℚ)) := by
  constructor
  · intro scores h
    have hlen : (sortDescBy (fun x : ℚ => x) scores).length = scores.length :=
      (sortDescBy_perm _ scores).length_eq
    refine ⟨?_, ?_, sortDescBy_perm _ scores, sortDescBy_pairwise _ scores⟩
    · simp only [combineChunkScores]
      rw [if_pos (by rw [hlen]; exact h)]
      have h2 : max 1 ((sortDescBy (fun x : ℚ => x) scores).length - 2) =
          scores.length - 2 := by rw [hlen]; omega
      have h3 : ((scores.length - 2 : ℕ) : ℚ) = (scores.length : ℚ) - 2 :=
        Nat.cast_sub (by omega)
      rw [h2, h3]
      ring
    · intro x hx
      exact sortDescBy_headI_max (fun x : ℚ => x) hx
  · intro scores hne hlen2
    simp only [combineChunkScores]
    rw [if_neg (by rw [(sortDescBy_perm (fun x : ℚ => x) scores).length_eq]; omega)]
    rw [(sortDescBy_perm (fun x : ℚ => x) scores).sum_eq,
      (sortDescBy_perm (fun x : ℚ => x) scores).length_eq]

/-- C9 witness: the weighting identity instantiated at a concrete
three-chunk score list. -/
theorem C9_chunk_score_weighting_witness :
    2 < ([(1 : ℚ), mkRat 3 4, 0] : List ℚ).length ∧
    (combineChunkScores [(1 : ℚ), mkRat 3 4, 0] =
        (sortDescBy (fun x : ℚ => x) [(1 : ℚ), mkRat 3 4, 0]).headI * (1/2)
        + (sortDescBy (fun x : ℚ => x) [(1 : ℚ), mkRat 3 4, 0]).tail.headI * (3/10)
        + (((sortDescBy (fun x : ℚ => x) [(1 : ℚ), mkRat 3 4, 0]).drop 2).sum
            / ((([(1 : ℚ), mkRat 3 4, 0] : List ℚ).length : ℚ) - 2)) * (1/5) ∧
      (∀ x ∈ [(1 : ℚ), mkRat 3 4, 0],
          x ≤ (sortDescBy (fun x : ℚ => x) [(1 : ℚ), mkRat 3 4, 0]).headI) ∧
      List.Perm (sortDescBy (fun x : ℚ => x) [(1 : ℚ), mkRat 3 4, 0])
        [(1 : ℚ), mkRat 3 4, 0] ∧
      (sortDescBy (fun x : ℚ => x) [(1 : ℚ), mkRat 3 4, 0]).Pairwise
        (fun a b : ℚ => b ≤ a)) :=
  ⟨by decide,
    C9_chunk_score_weighting.1 [(1 : ℚ), mkRat 3 4, 0] (by decide)⟩

/-- C10: the orchestrator's skip test is a substring test on the extracted
content: a PDF whose text extraction failed is skipped although its content
type is `'pdf'`, an HTML page whose visible text contains `ERROR` is
skipped although its content type is `'html'`, and in general every URL
whose extracted content contains the substring `ERROR` anywhere is neither
evaluated nor admitted to the registry.  The scenario run fetches all four
URLs but evaluates and accepts only the clean one. -/
theorem C10_error_substring_skip :
    (∀ e : String,
        (extract_content (FetchOutcome.pdfError e)).2 = "pdf" ∧
        pyContains (extract_content (FetchOutcome.pdfError e)).1 "ERROR" = true) ∧
    ((extract_content (FetchOutcome.htmlText "the page screams ERROR loudly")).2
        = "html" ∧
      pyContains (extract_content
        (FetchOutcome.htmlText "the page screams ERROR loudly")).1 "ERROR" = true) ∧
    (∀ (C : Collaborators) (ms msr : ℕ) (init : List SearchQuery)
        (url : String),
        pyContains (C.extract url).1 "ERROR" = true →
        (∀ (k : String) (f e : List String) (fu : Option (List String)),
            REvent.executed k f e fu ∈ (conduct_research C ms msr init).events →
            url ∉ e) ∧
        (∀ s ∈ (conduct_research C ms msr init).registry, s.url ≠ url)) ∧
    (conduct_research errorMarkerCollab 5 1 [⟨"q", 5, none⟩]).events =
      [REvent.executed "q:None" ["u_err", "u_pdf", "u_html", "u_ok"] ["u_ok"] none] ∧
    (conduct_research errorMarkerCollab 5 1 [⟨"q", 5, none⟩]).registry.map
      (fun s => s.url) = ["u_ok"] := by
  refine ⟨?_, ⟨rfl, by decide⟩, ?_, by decide, by decide⟩
  · intro e
    exact ⟨rfl, pdfError_marker e⟩
  · intro C ms msr init url h
    rcases errorContent_skipped C ms msr init url h with ⟨h1, h2, _⟩
    exact ⟨h1, h2⟩

/-- C10 witness: the substring skip applied at the HTML URL whose text
contains `ERROR` despite content type `'html'`. -/
theorem C10_error_substring_skip_witness :
    pyContains (errorMarkerCollab.extract "u_html").1 "ERROR" = true ∧
    (∀ s ∈ (conduct_research errorMarkerCollab 5 1 [⟨"q", 5, none⟩]).registry,
        s.url ≠ "u_html") :=
  ⟨by decide,
    (C10_error_substring_skip.2.2.1 errorMarkerCollab 5 1 [⟨"q", 5, none⟩]
        "u_html" (by decide)).2⟩

end WebResearch
